import Mathlib

/-!
Verification of `misc-tools/download_image.py`: a shallow embedding of the
script's functions in Lean.

The script is a single linear pipeline: URL scheme dispatch, channel
resolution, redirect following, download, checksum verification, symlink
aliasing.  Effectful library calls (the `requests` HTTP client, `wget`,
`sha256sum`, the `re` module, the filesystem) are modelled as explicit
parameters: an `Env` structure supplies the network responses, the hash
function and the regular-expression search oracle, the filesystem is a map
from absolute path strings to entries, and every embedded function returns
the list of external requests it issued alongside its result.
-/

namespace DownloadImage

/-! ### String helpers (Python `in`, `startswith`, `split`) -/

/-- Boolean list-prefix test, used to embed Python substring operations. -/
def listPrefixB : List Char → List Char → Bool
  | [], _ => true
  | _ :: _, [] => false
  | a :: as, b :: bs => a = b && listPrefixB as bs

/-- Boolean list-infix test. -/
def listInfixB (a : List Char) : List Char → Bool
  | [] => a.isEmpty
  | b :: bs => listPrefixB a (b :: bs) || listInfixB a bs

/-- Python's `a in b` on strings: `a` occurs as a contiguous substring of `b`. -/
def strIn (a b : String) : Bool := listInfixB a.toList b.toList

/-- Boolean string-prefix test. -/
def strPrefixB (a b : String) : Bool := listPrefixB a.toList b.toList

/-- Split a character list at non-overlapping occurrences of `sep`,
scanning left to right (Python `str.split(sep)` for a non-empty `sep`).
The fuel argument only drives the recursion; it is always called with at
least the input's length, which one unit per consumed character suffices
for. -/
def splitGo (sep : List Char) : Nat → List Char → List Char → List (List Char)
  | _, [], acc => [acc.reverse]
  | 0, l, acc => [acc.reverse ++ l]
  | n + 1, c :: cs, acc =>
    if sep ≠ [] ∧ listPrefixB sep (c :: cs) then
      acc.reverse :: splitGo sep n (List.drop (sep.length - 1) cs) []
    else
      splitGo sep n cs (c :: acc)

/-- Python `s.split(sep)` on strings (the script only splits on the
non-empty separators `"://"`, `"/"` and `" "`). -/
def strSplitOn (s sep : String) : List String :=
  (splitGo sep.toList s.toList.length s.toList []).map String.mk

/-- Join strings with a separator (the inverse of `strSplitOn`, used to
rebuild the remainder after the first separator occurrence). -/
def strIntercalate (sep : String) : List String → String
  | [] => ""
  | [x] => x
  | x :: xs => x ++ sep ++ strIntercalate sep xs

/-! ### `urlparse` (the slice of Python's `urlparse` the script uses) -/

/-- Result of `urlparse.urlparse`: the scheme, network location and path
components.  Query/fragment/userinfo are not used by the script. -/
structure ParsedUrl where
  scheme : String
  netloc : String
  upath : String
  deriving DecidableEq, Repr

/-- Model of `urlparse.urlparse` for URLs of the shapes the script handles:
the scheme is the text before the first `"://"`, the netloc runs from there
to the next `/`, and the path is the rest.  A string without `"://"` parses
with an empty scheme and netloc. -/
def urlparse (s : String) : ParsedUrl :=
  match strSplitOn s "://" with
  | [] => { scheme := "", netloc := "", upath := "" }
  | [x] => { scheme := "", netloc := "", upath := x }
  | x :: rest =>
    let r := strIntercalate "://" rest
    let netloc := (strSplitOn r "/").headD ""
    { scheme := x, netloc := netloc, upath := String.mk (r.toList.drop netloc.toList.length) }

/-- `get_filename(url)`: `urlparse.urlparse(url).path.split('/')[-1]`. -/
def get_filename (url : String) : String :=
  (strSplitOn (urlparse url).upath "/").getLastD ""

/-! ### Filesystem model -/

/-- A filesystem entry: a regular file with contents, or a symbolic link
storing its (possibly relative) target string. -/
inductive Entry where
  | file (content : String)
  | link (target : String)
  deriving DecidableEq, Repr

/-- The filesystem: a map from absolute path strings to entries. -/
def FS : Type := String → Option Entry

/-- Directory part of a path string (text before the final `/`). -/
def dirname (p : String) : String :=
  strIntercalate "/" ((strSplitOn p "/").dropLast)

/-- Resolve a possibly-relative path against a directory, as the OS does for
paths passed to `os.path.isfile`, `os.symlink`, `wget -O`, ... -/
def resolve (cwd p : String) : String :=
  if strPrefixB "/" p then p else cwd ++ "/" ++ p

/-- `os.path.islink`: the entry at the path itself is a symbolic link
(no following of the final component). -/
def islink (fs : FS) (p : String) : Bool :=
  match fs p with
  | some (Entry.link _) => true
  | _ => false

/-- Helper for `isfile`: follow symbolic links (targets resolve against the
link's directory) up to the given depth. -/
def isfileAux (fs : FS) : Nat → String → Bool
  | 0, _ => false
  | n + 1, p =>
    match fs p with
    | some (Entry.file _) => true
    | some (Entry.link t) => isfileAux fs n (resolve (dirname p) t)
    | none => false

/-- `os.path.isfile`: true when the path, after following symbolic links
(bounded by the OS loop limit), names a regular file. -/
def isfile (fs : FS) (p : String) : Bool := isfileAux fs 40 p

/-- `os.unlink`: remove the entry at the path. -/
def unlink (fs : FS) (p : String) : FS :=
  fun q => if q = p then none else fs q

/-- Write a regular file at the path (what `wget url -O path` does on
success), overwriting any prior entry. -/
def writeFile (fs : FS) (p content : String) : FS :=
  fun q => if q = p then some (Entry.file content) else fs q

/-! ### Errors, requests, environment -/

/-- The failure modes of the script, one constructor per distinct raise
site (spec taxonomy names).  `UnknownChannel` and `CorruptedDownload` are
generic `Exception`s in the source, `NoImageFound` is the `KeyError` of
`set.pop` on an empty set, `FileExists` is the `OSError` of `os.symlink`
when the target name already exists, `UnresolvableLocation` is the
`Exception` of the redirect walker, `NoLocation` models `requests.head`
called on the `None` a missing `Location` header yields, and `NoResponse`
marks the model's redirect-response list running out. -/
inductive DlErr where
  | UnknownChannel
  | NoImageFound
  | UnresolvableLocation
  | CorruptedDownload
  | FileExists
  | NoLocation
  | NoResponse
  deriving DecidableEq, Repr

/-- A HEAD response: status code and optional `Location` header. -/
structure HResp where
  status : Nat
  location : Option String
  deriving DecidableEq, Repr

/-- An external request issued by the script: a HEAD, a GET, a `wget`
subprocess download, or a line printed to stdout. -/
inductive Req where
  | head (u : String)
  | get (u : String)
  | wget (u : String)
  | print (s : String)
  deriving DecidableEq, Repr

/-- The external world: `body u` is the text a GET of `u` returns (and the
content `wget u` stores), `hash c` is the SHA-256 hex digest `sha256sum`
prints for contents `c`, `chain` is the sequence of HEAD responses the
server gives to the redirect walker, `search re s` is the `re.search`
oracle (`m.group(0)` of the first match of pattern `re` in `s`, if any),
and `page` is the list of text segments (`handle_data` chunks) of the
directory-listing page. -/
structure Env where
  body : String → String
  hash : String → String
  chain : List HResp
  search : String → String → Option String
  page : List String

/-! ### `get_versioned_image_link` (the Redirect Walker) -/

/-- `get_versioned_image_link(url)`: issue a HEAD request; on 302 or 301
recurse on the `Location` header, on 200 return the URL, otherwise raise
("Cannot find image location").  The recursion consumes the environment's
response chain one response per hop; alongside the result, the list of HEAD
requests issued is returned. -/
def get_versioned_image_link : String → List HResp → Except DlErr String × List Req
  | url, [] => (Except.error DlErr.NoResponse, [Req.head url])
  | url, r :: rest =>
    if r.status = 302 ∨ r.status = 301 then
      match r.location with
      | some loc =>
        let t := get_versioned_image_link loc rest
        (t.1, Req.head url :: t.2)
      | none => (Except.error DlErr.NoLocation, [Req.head url])
    else if r.status = 200 then
      (Except.ok url, [Req.head url])
    else
      (Except.error DlErr.UnresolvableLocation, [Req.head url])

/-! ### `ImageFinder` (the directory-listing scanner) -/

/-- The regular-expression pattern `ImageFinder.__init__` selects: with a
docker image name, `<name>.*x86_64-.*\.tar\.xz`; without one,
`.*KVM.*x86_64-.*\.qcow2`. -/
def imageRegexp (docker_image_name : Option String) : String :=
  match docker_image_name with
  | some n => n ++ ".*x86_64-.*\\.tar\\.xz"
  | none => ".*KVM.*x86_64-.*\\.qcow2"

/-- Add a match to the `images` set (`set.add`: no duplicates, here kept as
a duplicate-free list in insertion order). -/
def addImage (s : List String) (x : String) : List String :=
  if s.contains x then s else s ++ [x]

/-- `handle_data` over every text segment of the page, in document order:
on each segment, `re.search` the pattern and add `m.group(0)` to the set
when it matches. -/
def feedImages (search : String → String → Option String) (regexp : String)
    (acc : List String) : List String → List String
  | [] => acc
  | d :: ds =>
    match search regexp d with
    | some g => feedImages search regexp (addImage acc g) ds
    | none => feedImages search regexp acc ds

/-- `ImageFinder.get_image`: `self.images.pop()`.  CPython's `set.pop`
returns an arbitrary element and raises `KeyError` when the set is empty;
the model picks the first collected match. -/
def get_image : List String → Except DlErr String
  | [] => Except.error DlErr.NoImageFound
  | x :: _ => Except.ok x

/-! ### `get_channel_url` (the Channel Resolver) -/

/-- The fixed `url_base` channel table of `get_channel_url`. -/
def url_base : String → Option String
  | "release" =>
    some "http://download.suse.de/ibs/SUSE:/SLE-12-SP3:/Update:/Products:/CASP20/"
  | "staging_a" =>
    some "http://download.suse.de/ibs/SUSE:/SLE-12-SP3:/Update:/Products:/CASP20:/Staging:/A/"
  | "staging_b" =>
    some "http://download.suse.de/ibs/SUSE:/SLE-12-SP3:/Update:/Products:/CASP20:/Staging:/B/"
  | "devel" =>
    some "http://download.suse.de/ibs/Devel:/CASP:/Head:/ControllerNode/"
  | _ => none

/-- `get_channel_url(url, docker_image_name)`: take the channel from the
URL's netloc, raise "Unknown channel" if it is not in the table, extend the
base URL with the images subdirectory, GET the directory listing, feed it
through the `ImageFinder`, and return `<base-url>/<image>`.  The second
component records the GET requests issued. -/
def get_channel_url (url : String) (docker_image_name : Option String)
    (env : Env) : Except DlErr String × List Req :=
  let channel := (urlparse url).netloc
  match url_base channel with
  | none => (Except.error DlErr.UnknownChannel, [])
  | some base =>
    let base_url := base ++
      (if docker_image_name.isSome then "images_container_derived" else "images")
    let images :=
      feedImages env.search (imageRegexp docker_image_name) [] env.page
    match get_image images with
    | Except.error e => (Except.error e, [Req.get base_url])
    | Except.ok image => (Except.ok (base_url ++ "/" ++ image), [Req.get base_url])

/-! ### `download_file` (Fetch & Verify, then the Aliaser) -/

/-- Lines 104-107 of `download_file`: if `expected_name` differs from
`actual_name`, remove any symbolic link at `<path>/<type>-<expected_name>`
and create there a symbolic link to `actual_name`.  `os.symlink` raises
`OSError` when an entry still occupies the name (so when a non-link entry
was there, since only links are unlinked); on that raise the filesystem is
returned unmodified by the failed call. -/
def alias_step (fs : FS) (cwd path ty expected_name actual_name : String) :
    Except DlErr Unit × FS :=
  if expected_name = actual_name then
    (Except.ok (), fs)
  else
    let lp := resolve cwd (path ++ "/" ++ ty ++ "-" ++ expected_name)
    let fs1 := if islink fs lp then unlink fs lp else fs
    match fs1 lp with
    | some _ => (Except.error DlErr.FileExists, fs1)
    | none => (Except.ok (), fun q => if q = lp then some (Entry.link actual_name) else fs1 q)

/-- `download_file(path, type, url, expected_name, force_redownload)`:
resolve the redirect chain, derive `actual_name`; if
`os.path.isfile(actual_name)` is false (note: the bare name, resolved
against the process working directory, not against `path`) or
force-redownload is set, GET the `.sha256` companion, `wget` the file into
`<path>/<actual_name>`, run `sha256sum` on it, and raise "Download
corrupted" (printing both digests) when the first `' '`-token of the local
digest output is not a substring of the remote digest text; finally run the
alias step.  Returns the result, the final filesystem, and the requests
issued. -/
def download_file (env : Env) (fs : FS)
    (cwd path ty url expected_name : String) (force_redownload : Bool) :
    Except DlErr Unit × FS × List Req :=
  match get_versioned_image_link url env.chain with
  | (Except.error e, tr) => (Except.error e, fs, tr)
  | (Except.ok versioned_url, tr) =>
    let actual_name := get_filename versioned_url
    if !isfile fs (resolve cwd actual_name) || force_redownload then
      let remote_sha := env.body (versioned_url ++ ".sha256")
      let dlPath := resolve cwd (path ++ "/" ++ actual_name)
      let fs1 := writeFile fs dlPath (env.body versioned_url)
      let local_sha :=
        match fs1 dlPath with
        | some (Entry.file c) => env.hash c ++ "  " ++ path ++ "/" ++ actual_name ++ "\n"
        | _ => ""
      let tr1 := tr ++ [Req.get (versioned_url ++ ".sha256"), Req.wget versioned_url]
      if !strIn ((strSplitOn local_sha " ").headD "") remote_sha then
        (Except.error DlErr.CorruptedDownload, fs1,
          tr1 ++ [Req.print ("Local SHA: " ++ local_sha),
                  Req.print ("Remote SHA: " ++ remote_sha)])
      else
        let a := alias_step fs1 cwd path ty expected_name actual_name
        (a.1, a.2, tr1)
    else
      let a := alias_step fs cwd path ty expected_name actual_name
      (a.1, a.2, tr)

/-! ### The three dispatch targets and `__main__` -/

/-- `use_remote_file`: expected name is the input URL's filename. -/
def use_remote_file (env : Env) (fs : FS) (cwd path ty url : String)
    (force_redownload : Bool) : Except DlErr Unit × FS × List Req :=
  download_file env fs cwd path ty url (get_filename url) force_redownload

/-- `use_local_file(url)`: print `<cwd>/<expected_name>`; when that string
differs from the URL's path, remove any symbolic link named
`expected_name` in the working directory and create there a symbolic link
to the URL's path.  No network request is made and no checksum computed. -/
def use_local_file (fs : FS) (cwd url : String) :
    Except DlErr Unit × FS × List Req :=
  let expected_name := get_filename url
  let p := (urlparse url).upath
  let tr := [Req.print (cwd ++ "/" ++ expected_name)]
  if !(cwd ++ "/" ++ expected_name = p : Bool) then
    let lp := resolve cwd expected_name
    let fs1 := if islink fs lp then unlink fs lp else fs
    match fs1 lp with
    | some _ => (Except.error DlErr.FileExists, fs1, tr)
    | none => (Except.ok (), fun q => if q = lp then some (Entry.link p) else fs1 q, tr)
  else
    (Except.ok (), fs, tr)

/-- `use_channel_file`: resolve the channel URL, then download with the
channel name (the URL's netloc) as the expected name. -/
def use_channel_file (env : Env) (fs : FS) (cwd path ty url : String)
    (docker_image_name : Option String) (force_redownload : Bool) :
    Except DlErr Unit × FS × List Req :=
  match get_channel_url url docker_image_name env with
  | (Except.error e, tr) => (Except.error e, fs, tr)
  | (Except.ok remote_url, tr) =>
    let expected_name := (urlparse url).netloc
    let d := download_file env fs cwd path ty remote_url expected_name force_redownload
    (d.1, d.2.1, tr ++ d.2.2)

/-- The parsed command-line arguments of the script. -/
structure Args where
  path : String
  ty : String
  url : String
  docker_image_name : Option String
  skip : Bool
  force_redownload : Bool

/-- The `__main__` block after argument parsing: `--skip` exits 0 at once;
otherwise dispatch on the URL scheme (`http`/`https` remote, `file` local,
`channel` channel), and for any other scheme print "Unknown URL Type" and
exit 1.  `Except.ok n` is process exit status `n` (falling off the end of
the script is exit 0); `Except.error e` is an uncaught exception. -/
def main (env : Env) (fs : FS) (cwd : String) (args : Args) :
    Except DlErr Nat × FS × List Req :=
  if args.skip then
    (Except.ok 0, fs, [])
  else
    let scheme := (urlparse args.url).scheme
    if scheme = "http" ∨ scheme = "https" then
      let r := use_remote_file env fs cwd args.path args.ty args.url args.force_redownload
      (r.1.map (fun _ => 0), r.2.1, r.2.2)
    else if scheme = "file" then
      let r := use_local_file fs cwd args.url
      (r.1.map (fun _ => 0), r.2.1, r.2.2)
    else if scheme = "channel" then
      let r := use_channel_file env fs cwd args.path args.ty args.url
        args.docker_image_name args.force_redownload
      (r.1.map (fun _ => 0), r.2.1, r.2.2)
    else
      (Except.ok 1, fs, [Req.print ("Unknown URL Type: " ++ args.url)])

/-! ### Derived abbreviations used in specifications -/

/-- The concrete URL the redirect chain ends at: the input URL when there
are no redirect hops, otherwise the `Location` of the last hop. -/
def chainFinal (url : String) : List HResp → String
  | [] => url
  | r :: rs => chainFinal (r.location.getD "") rs

/-- The path of the alias link `download_file` manages:
`<path>/<type>-<expected_name>`, resolved against the working directory. -/
def aliasPath (cwd path ty expected_name : String) : String :=
  resolve cwd (path ++ "/" ++ ty ++ "-" ++ expected_name)

/-- The output `sha256sum <path>/<actual_name>` produces after `wget`
stored `env.body vurl` there: digest, two spaces, file name, newline. -/
def localShaOutput (env : Env) (path actual_name vurl : String) : String :=
  env.hash (env.body vurl) ++ "  " ++ path ++ "/" ++ actual_name ++ "\n"

/-! ### Helper lemmas -/

theorem listPrefixB_append (l m : List Char) : listPrefixB l (l ++ m) = true := by
  induction l with
  | nil => rfl
  | cons a as ih => simp [listPrefixB, ih]

theorem strPrefixB_append (a c : String) : strPrefixB a (a ++ c) = true := by
  show listPrefixB a.data (a ++ c).data = true
  rw [String.data_append]
  exact listPrefixB_append a.data c.data

theorem url_base_eq_none (s : String) (h1 : s ≠ "release") (h2 : s ≠ "staging_a")
    (h3 : s ≠ "staging_b") (h4 : s ≠ "devel") : url_base s = none := by
  unfold url_base
  split <;> simp_all

theorem unlink_ne (fs : FS) (p q : String) (h : q ≠ p) : unlink fs p q = fs q := by
  simp [unlink, h]

theorem alias_step_same (fs : FS) (cwd path ty name : String) :
    alias_step fs cwd path ty name name = (Except.ok (), fs) := by
  simp [alias_step]

theorem islink_eq_false_of_file (fs : FS) (p c : String)
    (hf : fs p = some (Entry.file c)) : islink fs p = false := by
  simp [islink, hf]

theorem islink_eq_true_of_link (fs : FS) (p t : String)
    (hl : fs p = some (Entry.link t)) : islink fs p = true := by
  simp [islink, hl]

theorem alias_step_ne (fs : FS) (cwd path ty expected actual : String)
    (h : expected ≠ actual)
    (hnf : ∀ c, fs (aliasPath cwd path ty expected) ≠ some (Entry.file c)) :
    alias_step fs cwd path ty expected actual =
      (Except.ok (), fun q => if q = aliasPath cwd path ty expected
        then some (Entry.link actual) else fs q) := by
  simp only [aliasPath] at hnf ⊢
  simp only [alias_step, if_neg h]
  cases hl : islink fs (resolve cwd (path ++ "/" ++ ty ++ "-" ++ expected)) with
  | true =>
    simp only [hl, if_true, unlink, ite_true]
    refine congrArg (Prod.mk (Except.ok ())) (funext fun q => ?_)
    by_cases hq : q = resolve cwd (path ++ "/" ++ ty ++ "-" ++ expected)
    · simp [hq]
    · simp [hq]
  | false =>
    have hnone : fs (resolve cwd (path ++ "/" ++ ty ++ "-" ++ expected)) = none := by
      cases hfs : fs (resolve cwd (path ++ "/" ++ ty ++ "-" ++ expected)) with
      | none => rfl
      | some e =>
        cases e with
        | file c => exact absurd hfs (hnf c)
        | link t =>
          rw [islink_eq_true_of_link fs _ t hfs] at hl
          exact absurd hl (by simp)
    simp [hl, hnone]

theorem alias_step_file_blocked (fs : FS) (cwd path ty expected actual : String)
    (h : expected ≠ actual) (c : String)
    (hf : fs (aliasPath cwd path ty expected) = some (Entry.file c)) :
    alias_step fs cwd path ty expected actual = (Except.error DlErr.FileExists, fs) := by
  simp only [aliasPath] at hf
  simp only [alias_step, if_neg h]
  rw [islink_eq_false_of_file fs _ c hf]
  simp [hf]

/-! ### Claim theorems -/

/-- C8: whenever the `--skip` flag is given, the program exits with status
0 and performs no filesystem or network side effects, for every
combination of the other arguments. -/
theorem skip_exits_clean (env : Env) (fs : FS) (cwd : String) (args : Args)
    (h : args.skip = true) :
    main env fs cwd args = (Except.ok 0, fs, []) := by
  simp [main, h]

theorem skip_exits_clean_witness :
    main { body := fun _ => "", hash := fun _ => "", chain := [],
           search := fun _ _ => none, page := [] }
      (fun _ => none) "/work"
      { path := "/data", ty := "vm", url := "not a url", docker_image_name := none,
        skip := true, force_redownload := true }
      = (Except.ok 0, fun _ => none, []) :=
  skip_exits_clean _ _ _ _ rfl

/-- C3: for every channel URL whose host is not one of the four fixed
channel names, channel resolution fails with `UnknownChannel` and issues
no request at all (in particular no directory-listing GET). -/
theorem unknown_channel_no_fetch (url : String) (docker_image_name : Option String)
    (env : Env)
    (h1 : (urlparse url).netloc ≠ "release") (h2 : (urlparse url).netloc ≠ "staging_a")
    (h3 : (urlparse url).netloc ≠ "staging_b") (h4 : (urlparse url).netloc ≠ "devel") :
    get_channel_url url docker_image_name env = (Except.error DlErr.UnknownChannel, []) := by
  simp only [get_channel_url]
  rw [url_base_eq_none _ h1 h2 h3 h4]

theorem unknown_channel_no_fetch_witness :
    get_channel_url "channel://nightly" none
      { body := fun _ => "", hash := fun _ => "", chain := [],
        search := fun _ _ => none, page := [] }
      = (Except.error DlErr.UnknownChannel, []) :=
  unknown_channel_no_fetch "channel://nightly" none _
    (by decide) (by decide) (by decide) (by decide)

/-- C9: when the directory-listing scan collects no match for the
applicable pattern, channel resolution fails with `NoImageFound` (the
empty-set pop) rather than returning a URL. -/
theorem no_image_found (url : String) (docker_image_name : Option String)
    (env : Env) (b : String)
    (hb : url_base (urlparse url).netloc = some b)
    (hempty : feedImages env.search (imageRegexp docker_image_name) [] env.page = []) :
    (get_channel_url url docker_image_name env).1 = Except.error DlErr.NoImageFound := by
  simp only [get_channel_url]
  rw [hb, hempty]
  simp only [get_image]

theorem no_image_found_witness :
    (get_channel_url "channel://devel" none
      { body := fun _ => "", hash := fun _ => "", chain := [],
        search := fun _ _ => none, page := ["no images here"] }).1
      = Except.error DlErr.NoImageFound :=
  no_image_found "channel://devel" none _
    "http://download.suse.de/ibs/Devel:/CASP:/Head:/ControllerNode/" rfl rfl

/-- C5: for every supported channel, resolution returns
`<base-url>/<matched-filename>` where `<base-url>` is the channel's table
entry extended with `images_container_derived` when a docker image name
was given and `images` otherwise; the result is in particular prefixed by
the channel's base directory. -/
theorem channel_url_under_base (url : String) (docker_image_name : Option String)
    (env : Env) (b img : String) (rest : List String)
    (hb : url_base (urlparse url).netloc = some b)
    (himg : feedImages env.search (imageRegexp docker_image_name) [] env.page
      = img :: rest) :
    (get_channel_url url docker_image_name env).1 =
      Except.ok ((b ++ (if docker_image_name.isSome
        then "images_container_derived" else "images")) ++ "/" ++ img) ∧
    strPrefixB b ((b ++ (if docker_image_name.isSome
        then "images_container_derived" else "images")) ++ "/" ++ img) = true := by
  constructor
  · simp only [get_channel_url]
    rw [hb, himg]
    simp only [get_image]
  · rw [String.append_assoc, String.append_assoc]
    exact strPrefixB_append b _

theorem channel_url_under_base_witness :
    (get_channel_url "channel://release" none
      { body := fun _ => "", hash := fun _ => "", chain := [],
        search := fun _ s => if s = "SUSE-KVM-x86_64-1.0.qcow2" then some s else none,
        page := ["SUSE-KVM-x86_64-1.0.qcow2"] }).1 =
      Except.ok
        (("http://download.suse.de/ibs/SUSE:/SLE-12-SP3:/Update:/Products:/CASP20/"
          ++ (if (none : Option String).isSome
            then "images_container_derived" else "images")) ++ "/"
          ++ "SUSE-KVM-x86_64-1.0.qcow2") ∧
    strPrefixB "http://download.suse.de/ibs/SUSE:/SLE-12-SP3:/Update:/Products:/CASP20/"
      (("http://download.suse.de/ibs/SUSE:/SLE-12-SP3:/Update:/Products:/CASP20/"
          ++ (if (none : Option String).isSome
            then "images_container_derived" else "images")) ++ "/"
          ++ "SUSE-KVM-x86_64-1.0.qcow2") = true :=
  channel_url_under_base "channel://release" none _ _ "SUSE-KVM-x86_64-1.0.qcow2" []
    rfl (by decide)

/-- C4: over a finite redirect chain whose every intermediate HEAD response
has status 301 or 302 with a `Location` header, a terminal 200 response
makes the walker return the final URL unchanged, and a terminal status
other than 200, 301 or 302 makes it fail with `UnresolvableLocation`. -/
theorem redirect_walker_terminal (url : String) (mids : List HResp) (final : HResp)
    (hm : ∀ r ∈ mids, (r.status = 301 ∨ r.status = 302) ∧ r.location.isSome = true) :
    (final.status = 200 →
      (get_versioned_image_link url (mids ++ [final])).1
        = Except.ok (chainFinal url mids)) ∧
    (final.status ≠ 200 → final.status ≠ 301 → final.status ≠ 302 →
      (get_versioned_image_link url (mids ++ [final])).1
        = Except.error DlErr.UnresolvableLocation) := by
  induction mids generalizing url with
  | nil =>
    constructor
    · intro h200
      simp [get_versioned_image_link, chainFinal, h200]
    · intro h200 h301 h302
      simp [get_versioned_image_link, h200, h301, h302]
  | cons r rs ih =>
    have hr := hm r (List.mem_cons_self r rs)
    obtain ⟨l, hl⟩ := Option.isSome_iff_exists.mp hr.2
    have hst : r.status = 302 ∨ r.status = 301 := hr.1.symm
    have hrec := ih l (fun x hx => hm x (List.mem_cons_of_mem _ hx))
    have hcf : chainFinal url (r :: rs) = chainFinal l rs := by
      simp [chainFinal, hl]
    constructor
    · intro h200
      rw [hcf]
      simp only [List.cons_append, get_versioned_image_link, if_pos hst, hl]
      exact hrec.1 h200
    · intro h200 h301 h302
      simp only [List.cons_append, get_versioned_image_link, if_pos hst, hl]
      exact hrec.2 h200 h301 h302

theorem redirect_walker_terminal_witness :
    ((get_versioned_image_link "http://h/latest"
        ([⟨301, some "http://h/v1"⟩, ⟨302, some "http://h/v2"⟩] ++ [⟨200, none⟩])).1
      = Except.ok "http://h/v2") ∧
    ((get_versioned_image_link "http://h/latest"
        ([⟨301, some "http://h/v1"⟩, ⟨302, some "http://h/v2"⟩] ++ [⟨404, none⟩])).1
      = Except.error DlErr.UnresolvableLocation) := by
  constructor
  · exact (redirect_walker_terminal "http://h/latest"
      [⟨301, some "http://h/v1"⟩, ⟨302, some "http://h/v2"⟩] ⟨200, none⟩
      (by decide)).1 rfl
  · exact (redirect_walker_terminal "http://h/latest"
      [⟨301, some "http://h/v1"⟩, ⟨302, some "http://h/v2"⟩] ⟨404, none⟩
      (by decide)).2 (by decide) (by decide) (by decide)

/-- C6: in the aliasing step, when `expected_name` differs from
`actual_name`, any symbolic link at `<path>/<type>-<expected_name>` is
removed and a fresh symbolic link to `actual_name` is created there (only
that path changes); when the names are equal nothing is created or
removed; and a second run on the state a successful run produced returns
exactly that state again with no error. -/
theorem alias_step_replaces_and_idempotent (fs : FS)
    (cwd path ty expected actual : String) :
    (expected = actual → alias_step fs cwd path ty expected actual = (Except.ok (), fs)) ∧
    (expected ≠ actual →
      (∀ c, fs (aliasPath cwd path ty expected) ≠ some (Entry.file c)) →
      alias_step fs cwd path ty expected actual =
        (Except.ok (), fun q => if q = aliasPath cwd path ty expected
          then some (Entry.link actual) else fs q)) ∧
    (∀ fs', alias_step fs cwd path ty expected actual = (Except.ok (), fs') →
      alias_step fs' cwd path ty expected actual = (Except.ok (), fs')) := by
  refine ⟨fun he => he ▸ alias_step_same fs cwd path ty expected,
          fun hne hnf => alias_step_ne fs cwd path ty expected actual hne hnf,
          fun fs' hok => ?_⟩
  by_cases he : expected = actual
  · subst he
    rw [alias_step_same] at hok
    have hfs : fs = fs' := congrArg Prod.snd hok
    rw [← hfs]
    exact alias_step_same fs cwd path ty expected
  · have hnf : ∀ c, fs (aliasPath cwd path ty expected) ≠ some (Entry.file c) := by
      intro c hf
      rw [alias_step_file_blocked fs cwd path ty expected actual he c hf] at hok
      exact absurd (congrArg Prod.fst hok) (by simp)
    rw [alias_step_ne fs cwd path ty expected actual he hnf] at hok
    have hfs' : fs' = fun q => if q = aliasPath cwd path ty expected
        then some (Entry.link actual) else fs q :=
      (congrArg Prod.snd hok).symm
    have hnf' : ∀ c, fs' (aliasPath cwd path ty expected) ≠ some (Entry.file c) := by
      intro c
      rw [hfs']
      simp
    rw [alias_step_ne fs' cwd path ty expected actual he hnf']
    refine congrArg (Prod.mk (Except.ok ())) (funext fun q => ?_)
    by_cases hq : q = aliasPath cwd path ty expected <;> simp [hfs', hq]

theorem alias_step_replaces_and_idempotent_witness :
    alias_step (fun _ => none) "/w" "/data" "vm" "caasp" "img-1.0.qcow2" =
      (Except.ok (), fun q => if q = aliasPath "/w" "/data" "vm" "caasp"
        then some (Entry.link "img-1.0.qcow2") else (fun _ => none : FS) q) ∧
    alias_step (fun q => if q = aliasPath "/w" "/data" "vm" "caasp"
        then some (Entry.link "img-1.0.qcow2") else none) "/w" "/data" "vm" "caasp"
        "img-1.0.qcow2" =
      (Except.ok (), fun q => if q = aliasPath "/w" "/data" "vm" "caasp"
        then some (Entry.link "img-1.0.qcow2") else none) := by
  constructor
  · exact ((alias_step_replaces_and_idempotent (fun _ => none) "/w" "/data" "vm"
      "caasp" "img-1.0.qcow2").2.1 (by decide) (fun c => by simp))
  · refine ((alias_step_replaces_and_idempotent (fun _ => none) "/w" "/data" "vm"
      "caasp" "img-1.0.qcow2").2.2 _ ?_).trans ?_
    · exact ((alias_step_replaces_and_idempotent (fun _ => none) "/w" "/data" "vm"
        "caasp" "img-1.0.qcow2").2.1 (by decide) (fun c => by simp))
    · refine congrArg (Prod.mk (Except.ok ())) (funext fun q => ?_)
      by_cases hq : q = aliasPath "/w" "/data" "vm" "caasp" <;> simp [hq]

/-- C7: for a `file://` URL the expected name is the last path segment;
when `<cwd>/<expected-name>` equals the URL's path no symlink is created;
otherwise any existing link of that name in the working directory is
removed and a symbolic link to the URL's path is created, only that name
changing; throughout, the only external action is the one printed line
(no network request, no checksum computed). -/
theorem local_file_alias (fs : FS) (cwd url : String) :
    get_filename url = (strSplitOn (urlparse url).upath "/").getLastD "" ∧
    (cwd ++ "/" ++ get_filename url = (urlparse url).upath →
      use_local_file fs cwd url =
        (Except.ok (), fs, [Req.print (cwd ++ "/" ++ get_filename url)])) ∧
    (cwd ++ "/" ++ get_filename url ≠ (urlparse url).upath →
      (∀ c, fs (resolve cwd (get_filename url)) ≠ some (Entry.file c)) →
      use_local_file fs cwd url =
        (Except.ok (), fun q => if q = resolve cwd (get_filename url)
            then some (Entry.link (urlparse url).upath) else fs q,
         [Req.print (cwd ++ "/" ++ get_filename url)])) := by
  refine ⟨rfl, fun heq => ?_, fun hne hnf => ?_⟩
  · simp [use_local_file, heq]
  · have hc : (!decide (cwd ++ "/" ++ get_filename url = (urlparse url).upath)) = true := by
      simp [hne]
    simp only [use_local_file, hc, if_true]
    cases hl : islink fs (resolve cwd (get_filename url)) with
    | true =>
      simp only [hl, if_true, unlink, ite_true]
      refine congrArg (Prod.mk (Except.ok ())) ?_
      refine congrArg (fun g => (g, [Req.print (cwd ++ "/" ++ get_filename url)])) ?_
      funext q
      by_cases hq : q = resolve cwd (get_filename url)
      · simp [hq]
      · simp [hq]
    | false =>
      have hnone : fs (resolve cwd (get_filename url)) = none := by
        cases hfs : fs (resolve cwd (get_filename url)) with
        | none => rfl
        | some e =>
          cases e with
          | file c => exact absurd hfs (hnf c)
          | link t =>
            rw [islink_eq_true_of_link fs _ t hfs] at hl
            exact absurd hl (by simp)
      simp [hl, hnone]

theorem local_file_alias_witness :
    use_local_file (fun _ => none) "/tmp/x" "file:///tmp/x/img.qcow2" =
      (Except.ok (), fun _ => none, [Req.print "/tmp/x/img.qcow2"]) ∧
    use_local_file (fun _ => none) "/other" "file:///tmp/x/img.qcow2" =
      (Except.ok (), fun q => if q = resolve "/other" (get_filename "file:///tmp/x/img.qcow2")
          then some (Entry.link (urlparse "file:///tmp/x/img.qcow2").upath)
          else (fun _ => none : FS) q,
       [Req.print ("/other" ++ "/" ++ get_filename "file:///tmp/x/img.qcow2")]) := by
  constructor
  · exact (local_file_alias (fun _ => none) "/tmp/x" "file:///tmp/x/img.qcow2").2.1 rfl
  · exact (local_file_alias (fun _ => none) "/other" "file:///tmp/x/img.qcow2").2.2
      (by decide) (fun c => by simp)

/-- C10: the aliasing steps unlink a pre-existing entry at the target name
only when it is a symbolic link: a regular file at
`<path>/<type>-<expected_name>` (or at `<expected-name>` in the working
directory for local-file aliasing) is not removed, the symlink creation
fails with an error, and the filesystem is returned unchanged. -/
theorem alias_keeps_regular_file (fs : FS) (cwd path ty expected actual url c : String) :
    (expected ≠ actual → fs (aliasPath cwd path ty expected) = some (Entry.file c) →
      alias_step fs cwd path ty expected actual = (Except.error DlErr.FileExists, fs)) ∧
    (cwd ++ "/" ++ get_filename url ≠ (urlparse url).upath →
      fs (resolve cwd (get_filename url)) = some (Entry.file c) →
      use_local_file fs cwd url =
        (Except.error DlErr.FileExists, fs,
         [Req.print (cwd ++ "/" ++ get_filename url)])) := by
  refine ⟨fun hne hf => alias_step_file_blocked fs cwd path ty expected actual hne c hf,
          fun hne hf => ?_⟩
  have hc : (!decide (cwd ++ "/" ++ get_filename url = (urlparse url).upath)) = true := by
    simp [hne]
  simp only [use_local_file, hc, if_true]
  rw [islink_eq_false_of_file fs _ c hf]
  simp [hf]

theorem alias_keeps_regular_file_witness :
    alias_step (fun q => if q = aliasPath "/w" "/data" "vm" "caasp"
        then some (Entry.file "precious") else none)
      "/w" "/data" "vm" "caasp" "img-1.0.qcow2" =
      (Except.error DlErr.FileExists,
       fun q => if q = aliasPath "/w" "/data" "vm" "caasp"
        then some (Entry.file "precious") else none) ∧
    use_local_file (fun q => if q = resolve "/other" (get_filename "file:///tmp/x/img.qcow2")
        then some (Entry.file "precious") else none)
      "/other" "file:///tmp/x/img.qcow2" =
      (Except.error DlErr.FileExists,
       (fun q => if q = resolve "/other" (get_filename "file:///tmp/x/img.qcow2")
        then some (Entry.file "precious") else none : FS),
       [Req.print ("/other" ++ "/" ++ get_filename "file:///tmp/x/img.qcow2")]) := by
  constructor
  · exact (alias_keeps_regular_file _ "/w" "/data" "vm" "caasp" "img-1.0.qcow2"
      "file:///tmp/x/img.qcow2" "precious").1 (by decide) (by simp)
  · exact (alias_keeps_regular_file _ "/other" "" "" "x" "y"
      "file:///tmp/x/img.qcow2" "precious").2 (by decide) (by simp)

/-- C1: in Fetch & Verify, once the redirect chain resolved and the
download branch is taken, verification passes exactly when the first
space-delimited token of the local digest output occurs as a substring of
the fetched remote digest text, and execution continues with the alias
step; otherwise the step fails with `CorruptedDownload`, prints both
digests, and neither creates nor updates any symbolic link (the only
filesystem change is the downloaded regular file). -/
theorem fetch_verify_digest (env : Env) (fs : FS)
    (cwd path ty url expected_name : String) (force_redownload : Bool)
    (vurl : String) (tr : List Req)
    (hres : get_versioned_image_link url env.chain = (Except.ok vurl, tr))
    (hdl : (!isfile fs (resolve cwd (get_filename vurl)) || force_redownload) = true) :
    (strIn ((strSplitOn (localShaOutput env path (get_filename vurl) vurl) " ").headD "")
        (env.body (vurl ++ ".sha256")) = true →
      download_file env fs cwd path ty url expected_name force_redownload =
        ((alias_step (writeFile fs (resolve cwd (path ++ "/" ++ get_filename vurl))
            (env.body vurl)) cwd path ty expected_name (get_filename vurl)).1,
         (alias_step (writeFile fs (resolve cwd (path ++ "/" ++ get_filename vurl))
            (env.body vurl)) cwd path ty expected_name (get_filename vurl)).2,
         tr ++ [Req.get (vurl ++ ".sha256"), Req.wget vurl])) ∧
    (strIn ((strSplitOn (localShaOutput env path (get_filename vurl) vurl) " ").headD "")
        (env.body (vurl ++ ".sha256")) = false →
      download_file env fs cwd path ty url expected_name force_redownload =
        (Except.error DlErr.CorruptedDownload,
         writeFile fs (resolve cwd (path ++ "/" ++ get_filename vurl)) (env.body vurl),
         tr ++ [Req.get (vurl ++ ".sha256"), Req.wget vurl,
                Req.print ("Local SHA: " ++ localShaOutput env path (get_filename vurl) vurl),
                Req.print ("Remote SHA: " ++ env.body (vurl ++ ".sha256"))]) ∧
      (∀ q t, (download_file env fs cwd path ty url expected_name force_redownload).2.1 q
          = some (Entry.link t) → fs q = some (Entry.link t))) := by
  have hwf : writeFile fs (resolve cwd (path ++ "/" ++ get_filename vurl)) (env.body vurl)
      (resolve cwd (path ++ "/" ++ get_filename vurl))
      = some (Entry.file (env.body vurl)) := by
    simp [writeFile]
  constructor
  · intro hpass
    simp only [download_file, hres, hdl, if_true, hwf, localShaOutput] at *
    simp only [hpass, Bool.not_true, Bool.false_eq_true, if_false]
  · intro hfail
    have heq : download_file env fs cwd path ty url expected_name force_redownload =
        (Except.error DlErr.CorruptedDownload,
         writeFile fs (resolve cwd (path ++ "/" ++ get_filename vurl)) (env.body vurl),
         tr ++ [Req.get (vurl ++ ".sha256"), Req.wget vurl,
                Req.print ("Local SHA: " ++ localShaOutput env path (get_filename vurl) vurl),
                Req.print ("Remote SHA: " ++ env.body (vurl ++ ".sha256"))]) := by
      simp only [download_file, hres, hdl, if_true, hwf, localShaOutput] at *
      simp only [hfail, Bool.not_false, if_true]
      simp [List.append_assoc]
    refine ⟨heq, fun q t hq => ?_⟩
    rw [heq] at hq
    by_cases hqp : q = resolve cwd (path ++ "/" ++ get_filename vurl)
    · rw [hqp] at hq
      simp [writeFile] at hq
    · simpa [writeFile, hqp] using hq

theorem fetch_verify_digest_witness :
    (download_file
      { body := fun u => if u = "http://host/img.qcow2" then "CONTENT" else "WRONG",
        hash := fun c => "h-" ++ c, chain := [⟨200, none⟩],
        search := fun _ _ => none, page := [] }
      (fun _ => none) "/w" "/d" "vm" "http://host/img.qcow2" "caasp" false).1
      = Except.error DlErr.CorruptedDownload := by
  have h := (fetch_verify_digest
    { body := fun u => if u = "http://host/img.qcow2" then "CONTENT" else "WRONG",
      hash := fun c => "h-" ++ c, chain := [⟨200, none⟩],
      search := fun _ _ => none, page := [] }
    (fun _ => none) "/w" "/d" "vm" "http://host/img.qcow2" "caasp" false
    "http://host/img.qcow2" [Req.head "http://host/img.qcow2"]
    rfl (by decide)).2 (by decide)
  rw [h.1]

/-- C2 evidence: the "already downloaded" shortcut of `download_file`
tests `os.path.isfile(actual_name)` with the bare filename, which the OS
resolves against the process working directory, not against the `path`
destination directory every other file operation of the function uses.
With the working directory `/work` and destination `/data`: a file already
present at `/data/img.qcow2` does not suppress the download (a `wget`
request is still issued), while a stray `/work/img.qcow2` suppresses it
even though nothing exists in the destination directory. -/
theorem download_shortcut_uses_cwd :
    isfile (fun q => if q = "/data/img.qcow2" then some (Entry.file "CONTENT") else none)
      ("/data" ++ "/" ++ "img.qcow2") = true ∧
    Req.wget "http://host/img.qcow2" ∈
      (download_file
        { body := fun u => if u = "http://host/img.qcow2.sha256"
            then "h-CONTENT ok" else "CONTENT",
          hash := fun c => "h-" ++ c, chain := [⟨200, none⟩],
          search := fun _ _ => none, page := [] }
        (fun q => if q = "/data/img.qcow2" then some (Entry.file "CONTENT") else none)
        "/work" "/data" "vm" "http://host/img.qcow2" "img.qcow2" false).2.2 ∧
    isfile (fun q => if q = "/work/img.qcow2" then some (Entry.file "CONTENT") else none)
      ("/data" ++ "/" ++ "img.qcow2") = false ∧
    (download_file
        { body := fun u => if u = "http://host/img.qcow2.sha256"
            then "h-CONTENT ok" else "CONTENT",
          hash := fun c => "h-" ++ c, chain := [⟨200, none⟩],
          search := fun _ _ => none, page := [] }
        (fun q => if q = "/work/img.qcow2" then some (Entry.file "CONTENT") else none)
        "/work" "/data" "vm" "http://host/img.qcow2" "img.qcow2" false).2.2
      = [Req.head "http://host/img.qcow2"] := by
  refine ⟨by decide, by decide, by decide, by decide⟩

end DownloadImage
